import Mathlib

/-!
Verification of the box-tree model of `weasyprint/formatting_structure/boxes.py`.

The Python module defines a class hierarchy of CSS boxes.  We embed it as
follows: the concrete runtime class of a box becomes a `BoxKind` tag; the
per-instance attributes (geometry fields, style, flags, text) become a
`BoxData` record; the tree structure (regular `children`, the optional
`outside_list_marker` of a block box, the `column_groups` of a table box)
becomes a nested inductive `Box`.  Lengths and positions are modelled as
exact rationals `ℚ`.  Methods become Lean functions on these types,
translated clause by clause from the source.
-/

/-- Concrete box classes of the module (the runtime variant of a box). -/
inductive BoxKind where
  | blockBox
  | lineBox
  | inlineBox
  | inlineBlockBox
  | blockReplacedBox
  | inlineReplacedBox
  | textBox
  | tableBox
  | inlineTableBox
  | tableRowGroupBox
  | tableRowBox
  | tableColumnGroupBox
  | tableColumnBox
  | tableCellBox
  | tableCaptionBox
  | pageBox
  | marginBox
  deriving DecidableEq, Repr

/-- Whether the class is a subclass of `ParentBox` (has `children`,
`descendants`, `copy_with_children`, ...).  In the source every concrete
class except `TextBox`, `BlockReplacedBox` and `InlineReplacedBox`
inherits from `ParentBox`. -/
def isParentKind : BoxKind → Bool
  | .textBox => false
  | .blockReplacedBox => false
  | .inlineReplacedBox => false
  | _ => true

/-- Whether the class is a subclass of `InlineLevelBox` in the source class
hierarchy: `InlineBox`, `InlineBlockBox` (through `AtomicInlineLevelBox`),
`TextBox` and `InlineReplacedBox`.  Note that `InlineTableBox` is *not* an
`InlineLevelBox` in the source: it derives from `TableBox`, which derives
from `BlockLevelBox`.  This predicate decides which `_remove_decoration`
override the method-resolution order picks. -/
def isInlineLevelKind : BoxKind → Bool
  | .inlineBox => true
  | .inlineBlockBox => true
  | .textBox => true
  | .inlineReplacedBox => true
  | _ => false

/-- Whether the class passes `isinstance(child, TableBox)`:
`TableBox` itself and its subclass `InlineTableBox`. -/
def isTableBoxKind : BoxKind → Bool
  | .tableBox => true
  | .inlineTableBox => true
  | _ => false

/-- The subset of a computed style that the module reads or writes:
the twelve spacing entries written by `_reset_spacing`, plus `direction`,
`text_transform`, `hyphens` and the `anonymous` flag.  Lengths are in
pixels; `ZERO_PIXELS` is the zero length. -/
structure Style where
  marginTop : ℚ := 0
  marginBottom : ℚ := 0
  marginLeft : ℚ := 0
  marginRight : ℚ := 0
  paddingTop : ℚ := 0
  paddingBottom : ℚ := 0
  paddingLeft : ℚ := 0
  paddingRight : ℚ := 0
  borderTopWidth : ℚ := 0
  borderBottomWidth : ℚ := 0
  borderLeftWidth : ℚ := 0
  borderRightWidth : ℚ := 0
  direction : String := "ltr"
  textTransform : String := "none"
  hyphens : String := "manual"
  anonymous : Bool := false
  deriving DecidableEq, Repr

/-- The `ZERO_PIXELS` length written into the style by `_reset_spacing`. -/
def zeroPixels : ℚ := 0

/-- Per-instance attributes of a box other than the tree links: the
runtime class tag, the geometry fields that layout resolves, the owned
style, the `is_table_wrapper` flag, the optional `bookmark_level`, and
(for text boxes) the text. -/
structure BoxData where
  kind : BoxKind
  positionX : ℚ := 0
  positionY : ℚ := 0
  width : ℚ := 0
  height : ℚ := 0
  marginTop : ℚ := 0
  marginBottom : ℚ := 0
  marginLeft : ℚ := 0
  marginRight : ℚ := 0
  paddingTop : ℚ := 0
  paddingBottom : ℚ := 0
  paddingLeft : ℚ := 0
  paddingRight : ℚ := 0
  borderTopWidth : ℚ := 0
  borderBottomWidth : ℚ := 0
  borderLeftWidth : ℚ := 0
  borderRightWidth : ℚ := 0
  style : Style := {}
  isTableWrapper : Bool := false
  bookmarkLevel : Option Int := none
  text : String := ""
  deriving DecidableEq, Repr

/-- Width of the padding box: `self.width + self.padding_left +
self.padding_right`. -/
def BoxData.paddingWidth (d : BoxData) : ℚ :=
  d.width + d.paddingLeft + d.paddingRight

/-- Height of the padding box: `self.height + self.padding_top +
self.padding_bottom`. -/
def BoxData.paddingHeight (d : BoxData) : ℚ :=
  d.height + d.paddingTop + d.paddingBottom

/-- Width of the border box: `self.padding_width() + self.border_left_width
+ self.border_right_width`. -/
def BoxData.borderWidth (d : BoxData) : ℚ :=
  d.paddingWidth + d.borderLeftWidth + d.borderRightWidth

/-- Height of the border box: `self.padding_height() +
self.border_top_width + self.border_bottom_width`. -/
def BoxData.borderHeight (d : BoxData) : ℚ :=
  d.paddingHeight + d.borderTopWidth + d.borderBottomWidth

/-- Width of the margin box: `self.border_width() + self.margin_left +
self.margin_right`. -/
def BoxData.marginWidth (d : BoxData) : ℚ :=
  d.borderWidth + d.marginLeft + d.marginRight

/-- Height of the margin box: `self.border_height() + self.margin_top +
self.margin_bottom`. -/
def BoxData.marginHeight (d : BoxData) : ℚ :=
  d.borderHeight + d.marginTop + d.marginBottom

/-- A box: its own attributes, its regular `children` sequence, its
`outside_list_marker` (a list that is empty for `None` and a singleton
for an attached marker), and its `column_groups` (meaningful for table
boxes). -/
inductive Box where
  | mk (data : BoxData) (children marker columnGroups : List Box)

/-- The per-instance attributes of the box. -/
def Box.data : Box → BoxData
  | .mk d _ _ _ => d

/-- The regular `children` sequence of the box. -/
def Box.children : Box → List Box
  | .mk _ cs _ _ => cs

/-- The `outside_list_marker` of the box, as a zero-or-one element list. -/
def Box.marker : Box → List Box
  | .mk _ _ m _ => m

/-- The `column_groups` of the box. -/
def Box.columnGroups : Box → List Box
  | .mk _ _ _ gs => gs

/-- `all_children()`: the base `Box` implementation returns `()`;
`ParentBox` overrides it to return `self.children`; `BlockBox` (and its
subclass `TableCaptionBox`) appends the `outside_list_marker` when one is
attached; `TableBox` (and its subclass `InlineTableBox`) chains
`self.children` with `self.column_groups`. -/
def Box.allChildren : Box → List Box
  | .mk d cs m gs =>
    if d.kind = .blockBox ∨ d.kind = .tableCaptionBox then cs ++ m
    else if d.kind = .tableBox ∨ d.kind = .inlineTableBox then cs ++ gs
    else if isParentKind d.kind then cs
    else []

mutual

/-- `translate(dx, dy)`: adds `dx` to `position_x` and `dy` to
`position_y`, then recursively translates every box in `all_children()`
by the same deltas.  The three `if`s mirror which sublists
`all_children()` exposes for the box's class (see `Box.allChildren`). -/
def Box.translate (dx dy : ℚ) : Box → Box
  | .mk d cs m gs =>
    Box.mk { d with positionX := d.positionX + dx, positionY := d.positionY + dy }
      (if isParentKind d.kind then translateList dx dy cs else cs)
      (if d.kind = .blockBox ∨ d.kind = .tableCaptionBox then translateList dx dy m else m)
      (if d.kind = .tableBox ∨ d.kind = .inlineTableBox then translateList dx dy gs else gs)

/-- Pointwise `translate` over a list of boxes. -/
def translateList (dx dy : ℚ) : List Box → List Box
  | [] => []
  | b :: bs => Box.translate dx dy b :: translateList dx dy bs

end

mutual

/-- The `(position_x, position_y)` pairs of a box and of every box
reachable from it recursively through `all_children()` (the set of boxes
`translate` visits). -/
def Box.reachablePositions : Box → List (ℚ × ℚ)
  | .mk d cs m gs =>
    (d.positionX, d.positionY) ::
      (if d.kind = .blockBox ∨ d.kind = .tableCaptionBox then
        reachableList cs ++ reachableList m
      else if d.kind = .tableBox ∨ d.kind = .inlineTableBox then
        reachableList cs ++ reachableList gs
      else if isParentKind d.kind then reachableList cs
      else [])

/-- Concatenated `reachablePositions` over a list of boxes. -/
def reachableList : List Box → List (ℚ × ℚ)
  | [] => []
  | b :: bs => b.reachablePositions ++ reachableList bs

end

mutual

/-- `descendants()` (defined on `ParentBox`): yields the box itself, then
for each element of the regular `children` sequence, the child's own
descendant walk when the child has one (`hasattr(child, 'descendants')`,
i.e. the child is a `ParentBox`), else the child alone. -/
def Box.descendants : Box → List Box
  | .mk d cs m gs => Box.mk d cs m gs :: descendantsList cs

/-- The concatenated walk over a children list: each parent-capable child
contributes its own `descendants()`, each leaf child contributes itself. -/
def descendantsList : List Box → List Box
  | [] => []
  | c :: rest =>
    (if isParentKind c.data.kind then c.descendants else [c]) ++ descendantsList rest

end

/-- `get_wrapped_table()`: when `self.is_table_wrapper` holds, scan the
regular children for the first `isinstance(child, TableBox)` child and
return it; when the loop finds none, raise
`ValueError('Table wrapper without a table')`.  When the box is not a
table wrapper the method falls through and returns `None`. -/
def Box.getWrappedTable (b : Box) : Except String (Option Box) :=
  if b.data.isTableWrapper then
    match b.children.find? (fun c => isTableBoxKind c.data.kind) with
    | some child => .ok (some child)
    | none => .error "Table wrapper without a table"
  else
    .ok (none)

/-- One of the four physical sides a spacing field can name. -/
inductive Side where
  | top
  | bottom
  | left
  | right
  deriving DecidableEq, Repr

/-- The resolved `margin_<side>` field of a box. -/
def BoxData.marginOn (d : BoxData) : Side → ℚ
  | .top => d.marginTop
  | .bottom => d.marginBottom
  | .left => d.marginLeft
  | .right => d.marginRight

/-- The resolved `padding_<side>` field of a box. -/
def BoxData.paddingOn (d : BoxData) : Side → ℚ
  | .top => d.paddingTop
  | .bottom => d.paddingBottom
  | .left => d.paddingLeft
  | .right => d.paddingRight

/-- The resolved `border_<side>_width` field of a box. -/
def BoxData.borderWidthOn (d : BoxData) : Side → ℚ
  | .top => d.borderTopWidth
  | .bottom => d.borderBottomWidth
  | .left => d.borderLeftWidth
  | .right => d.borderRightWidth

/-- The `margin_<side>` entry of a style map. -/
def Style.marginOn (s : Style) : Side → ℚ
  | .top => s.marginTop
  | .bottom => s.marginBottom
  | .left => s.marginLeft
  | .right => s.marginRight

/-- The `padding_<side>` entry of a style map. -/
def Style.paddingOn (s : Style) : Side → ℚ
  | .top => s.paddingTop
  | .bottom => s.paddingBottom
  | .left => s.paddingLeft
  | .right => s.paddingRight

/-- The `border_<side>_width` entry of a style map. -/
def Style.borderWidthOn (s : Style) : Side → ℚ
  | .top => s.borderTopWidth
  | .bottom => s.borderBottomWidth
  | .left => s.borderLeftWidth
  | .right => s.borderRightWidth

/-- `_reset_spacing(side)`: sets the box's resolved `margin_<side>`,
`padding_<side>` and `border_<side>_width` attributes to `0`, and writes
`ZERO_PIXELS` into the style's `margin_<side>` and `padding_<side>`
entries and `0` into its `border_<side>_width` entry. -/
def resetSpacing (d : BoxData) : Side → BoxData
  | .top =>
    { d with
      marginTop := 0
      paddingTop := 0
      borderTopWidth := 0
      style := { d.style with
        marginTop := zeroPixels
        paddingTop := zeroPixels
        borderTopWidth := 0 } }
  | .bottom =>
    { d with
      marginBottom := 0
      paddingBottom := 0
      borderBottomWidth := 0
      style := { d.style with
        marginBottom := zeroPixels
        paddingBottom := zeroPixels
        borderBottomWidth := 0 } }
  | .left =>
    { d with
      marginLeft := 0
      paddingLeft := 0
      borderLeftWidth := 0
      style := { d.style with
        marginLeft := zeroPixels
        paddingLeft := zeroPixels
        borderLeftWidth := 0 } }
  | .right =>
    { d with
      marginRight := 0
      paddingRight := 0
      borderRightWidth := 0
      style := { d.style with
        marginRight := zeroPixels
        paddingRight := zeroPixels
        borderRightWidth := 0 } }

/-- `_remove_decoration(start, end)`: the `ParentBox` implementation
resets the `top` side when `start` holds and the `bottom` side when `end`
holds; the `InlineLevelBox` override instead resets the logical start
side (`left` when `style.direction == 'ltr'`, else `right`) when `start`
holds and the logical end side when `end` holds.  The method-resolution
order picks the `InlineLevelBox` version exactly for the classes
`isInlineLevelKind` identifies. -/
def removeDecoration (d : BoxData) (start stop : Bool) : BoxData :=
  if isInlineLevelKind d.kind then
    let ltr := d.style.direction = "ltr"
    let d1 := if start then resetSpacing d (if ltr then .left else .right) else d
    if stop then resetSpacing d1 (if ltr then .right else .left) else d1
  else
    let d1 := if start then resetSpacing d .top else d
    if stop then resetSpacing d1 .bottom else d1

/-- `copy_with_children(new_children, is_start, is_end)`: copies the box
(the copy owns a fresh copy of the style with the same values), replaces
`children` by `new_children`, and — when `is_start` is false — clears the
`outside_list_marker` and deletes a truthy `bookmark_level`; finally the
copy removes its decoration with `_remove_decoration(not is_start,
not is_end)`. -/
def Box.copyWithChildren (b : Box) (newChildren : List Box)
    (isStart isEnd : Bool) : Box :=
  match b with
  | .mk d _ m gs =>
    let m2 := if isStart then m else []
    let bl2 :=
      if isStart then d.bookmarkLevel
      else
        match d.bookmarkLevel with
        | some v => if v ≠ 0 then none else some v
        | none => none
    Box.mk (removeDecoration { d with bookmarkLevel := bl2 } (!isStart) (!isEnd))
      newChildren m2 gs

/-- The edge whose decoration a continuation fragment loses when it is
not the first fragment: physically `top` for classes using the
`ParentBox` stripping, the logical start side for classes using the
`InlineLevelBox` stripping. -/
def leadingEdge (k : BoxKind) (direction : String) : Side :=
  if isInlineLevelKind k then (if direction = "ltr" then .left else .right)
  else .top

/-- The edge whose decoration a fragment loses when it is not the last
fragment: physically `bottom` for classes using the `ParentBox`
stripping, the logical end side for classes using the `InlineLevelBox`
stripping. -/
def trailingEdge (k : BoxKind) (direction : String) : Side :=
  if isInlineLevelKind k then (if direction = "ltr" then .right else .left)
  else .bottom

/-- Uppercase mapping of one character, as Python's `str.upper` maps it,
covering the Basic Latin and Latin-1 ranges this module's inputs draw
from (including the full-string expansion of U+00DF to `SS`); characters
outside these ranges map to themselves. -/
def pyUpperChar (c : Char) : String :=
  if c = 'ß' then "SS"
  else if 'a' ≤ c ∧ c ≤ 'z' then String.singleton (Char.ofNat (c.toNat - 32))
  else if 'à' ≤ c ∧ c ≤ 'þ' ∧ c ≠ '÷' then String.singleton (Char.ofNat (c.toNat - 32))
  else if c = 'ÿ' then String.singleton (Char.ofNat 0x178)
  else if c = 'µ' then String.singleton (Char.ofNat 0x39C)
  else String.singleton c

/-- Lowercase mapping of one character, as Python's `str.lower` maps it,
covering the same ranges as `pyUpperChar`. -/
def pyLowerChar (c : Char) : Char :=
  if 'A' ≤ c ∧ c ≤ 'Z' then Char.ofNat (c.toNat + 32)
  else if 'À' ≤ c ∧ c ≤ 'Þ' ∧ c ≠ '×' then Char.ofNat (c.toNat + 32)
  else if c = Char.ofNat 0x178 then 'ÿ'
  else c

/-- Whether a character is cased, for the purposes of `str.title`'s word
boundaries, over the ranges covered by `pyUpperChar` and `pyLowerChar`. -/
def isCasedChar (c : Char) : Bool :=
  if ('a' ≤ c ∧ c ≤ 'z') ∨ ('A' ≤ c ∧ c ≤ 'Z') then true
  else if ('À' ≤ c ∧ c ≤ 'ÿ') ∧ c ≠ '×' ∧ c ≠ '÷' then true
  else if c = Char.ofNat 0x178 ∨ c = 'µ' then true
  else false

/-- `str.upper`: every character replaced by its uppercase mapping. -/
def pyUpper (s : String) : String :=
  String.join (s.data.map pyUpperChar)

/-- `str.lower`: every character replaced by its lowercase mapping. -/
def pyLower (s : String) : String :=
  String.mk (s.data.map pyLowerChar)

/-- Worker for `pyTitle`: uppercases a cased character that follows a
non-cased one, lowercases a cased character that follows a cased one,
and leaves non-cased characters unchanged. -/
def pyTitleAux : Bool → List Char → List Char
  | _, [] => []
  | prevCased, c :: rest =>
    if isCasedChar c then
      (if prevCased then [pyLowerChar c] else (pyUpperChar c).data)
        ++ pyTitleAux true rest
    else
      c :: pyTitleAux false rest

/-- `str.title`, over the ranges covered by the character maps above:
the first cased character of every cased run is uppercased, the
following cased characters are lowercased. -/
def pyTitle (s : String) : String :=
  String.mk (pyTitleAux false s.data)

/-- U+00AD SOFT HYPHEN (SHY). -/
def softHyphen : Char := '\u00AD'

/-- Removal of every soft hyphen from the text, as
`text.replace(<U+00AD>, <empty string>)` performs it. -/
def removeSoftHyphens (s : String) : String :=
  String.mk (s.data.filter (fun c => c ≠ softHyphen))

/-- The `text_transform` step of `TextBox.__init__`: when the value is
not `'none'` the text is passed through the handler a dict lookup picks
for `'uppercase'`, `'lowercase'` or `'capitalize'`; any other value has
no handler and the lookup fails (`KeyError`), modelled as `none`. -/
def applyTextTransform (textTransform : String) (text : String) : Option String :=
  if textTransform ≠ "none" then
    match textTransform with
    | "uppercase" => some (pyUpper text)
    | "lowercase" => some (pyLower text)
    | "capitalize" => some (pyTitle text)
    | _ => none
  else
    some text

/-- `TextBox.__init__(element_tag, sourceline, style, text)`, reduced to
the text it stores: asserts that the style is anonymous and that the
incoming text is non-empty, applies the style's `text_transform`, then —
when `style.hyphens == 'none'` — strips every soft hyphen.  A failed
assertion or a failed transform lookup is modelled as `none`. -/
def textBoxInit (style : Style) (text : String) : Option String :=
  if style.anonymous then
    if text ≠ "" then
      match applyTextTransform style.textTransform text with
      | some t =>
        some (if style.hyphens = "none" then removeSoftHyphens t else t)
      | none => none
    else none
  else none

/-- A heap of style objects: object identities are allocation indices
into the store.  This models Python's object identity for the aliasing
claims about `Box.copy`. -/
structure StyleStore where
  size : Nat
  contents : Nat → Style

/-- Dereference a style object. -/
def StyleStore.get (st : StyleStore) (i : Nat) : Style :=
  st.contents i

/-- Mutate the style object `i` in place (e.g. `style['margin_top'] = v`):
only the object at `i` changes. -/
def StyleStore.setProp (st : StyleStore) (i : Nat) (f : Style → Style) : StyleStore :=
  { st with contents := fun j => if j = i then f (st.contents j) else st.contents j }

/-- Allocate a new style object holding `s`; returns the store and the
fresh identity. -/
def StyleStore.alloc (st : StyleStore) (s : Style) : StyleStore × Nat :=
  ({ size := st.size + 1,
     contents := fun j => if j = st.size then s else st.contents j },
   st.size)

/-- The attributes of a box object that `Box.copy` handles, with `style`
and `children` as object references: `__dict__.update` copies each
attribute reference verbatim. -/
structure PyBoxObj where
  kind : BoxKind
  styleRef : Nat
  childrenRef : Nat
  positionX : ℚ := 0
  positionY : ℚ := 0
  deriving DecidableEq, Repr

/-- `Box.copy()`: builds a new instance of the same class
(`cls = type(self); new_box = cls.__new__(cls)`), copies every attribute
reference (`new_box.__dict__.update(self.__dict__)`), then replaces the
style reference with a freshly allocated copy of the current style values
(`new_box.style = self.style.copy()`).  The `children` tuple reference is
among the attributes copied verbatim: it is not deep-copied. -/
def pyBoxCopy (st : StyleStore) (b : PyBoxObj) : StyleStore × PyBoxObj :=
  let alloc := st.alloc (st.get b.styleRef)
  (alloc.1, { b with styleRef := alloc.2 })

/-- Identity of the single list object Python builds for the default
expression `children=[]` of `MarginBox.__init__` when the `def` statement
executes: the expression is evaluated once, at class-definition time, and
the resulting list object is reused by every later call that omits the
argument. -/
def marginBoxDefaultListId : Nat := 0

/-- Identity of the list object bound to the `children` parameter when
`MarginBox.__init__` runs: a call that passes a list passes that list's
identity; a call that omits the argument receives the shared default
list object. -/
def marginBoxChildrenArgId : Option Nat → Nat
  | some listId => listId
  | none => marginBoxDefaultListId

/-! Helper lemmas shared by the claim theorems. -/

theorem reachableList_append (l1 l2 : List Box) :
    reachableList (l1 ++ l2) = reachableList l1 ++ reachableList l2 := by
  induction l1 with
  | nil => simp [reachableList]
  | cons b bs ih => simp [reachableList, ih]

mutual

theorem translate_translate_neg (dx dy : ℚ) (b : Box) :
    Box.translate (-dx) (-dy) (Box.translate dx dy b) = b := by
  cases b with
  | mk d cs m gs =>
    by_cases h1 : isParentKind d.kind = true <;>
    by_cases h2 : d.kind = BoxKind.blockBox ∨ d.kind = BoxKind.tableCaptionBox <;>
    by_cases h3 : d.kind = BoxKind.tableBox ∨ d.kind = BoxKind.inlineTableBox <;>
      simp [Box.translate, h1, h2, h3, translateList_translate_neg]

theorem translateList_translate_neg (dx dy : ℚ) (l : List Box) :
    translateList (-dx) (-dy) (translateList dx dy l) = l := by
  cases l with
  | nil => simp [translateList]
  | cons b bs =>
    simp [translateList, translate_translate_neg, translateList_translate_neg]

end

mutual

theorem reachable_translate (dx dy : ℚ) (b : Box) :
    (Box.translate dx dy b).reachablePositions =
      b.reachablePositions.map (fun p => (p.1 + dx, p.2 + dy)) := by
  cases b with
  | mk d cs m gs =>
    by_cases h2 : d.kind = BoxKind.blockBox ∨ d.kind = BoxKind.tableCaptionBox
    · have h1 : isParentKind d.kind = true := by
        rcases h2 with h | h <;> simp [h, isParentKind]
      have h3 : ¬(d.kind = BoxKind.tableBox ∨ d.kind = BoxKind.inlineTableBox) := by
        rcases h2 with h | h <;> simp [h]
      simp [Box.translate, Box.reachablePositions, h1, h2, h3,
        reachableList_translate]
    · by_cases h3 : d.kind = BoxKind.tableBox ∨ d.kind = BoxKind.inlineTableBox
      · have h1 : isParentKind d.kind = true := by
          rcases h3 with h | h <;> simp [h, isParentKind]
        simp [Box.translate, Box.reachablePositions, h1, h2, h3,
          reachableList_translate]
      · by_cases h1 : isParentKind d.kind = true <;>
          simp [Box.translate, Box.reachablePositions, h1, h2, h3,
            reachableList_translate]

theorem reachableList_translate (dx dy : ℚ) (l : List Box) :
    reachableList (translateList dx dy l) =
      (reachableList l).map (fun p => (p.1 + dx, p.2 + dy)) := by
  cases l with
  | nil => simp [translateList, reachableList]
  | cons b bs =>
    simp [translateList, reachableList, reachable_translate,
      reachableList_translate]

end

theorem reachablePositions_eq_allChildren (b : Box) :
    b.reachablePositions =
      (b.data.positionX, b.data.positionY) :: reachableList b.allChildren := by
  cases b with
  | mk d cs m gs =>
    by_cases h1 : isParentKind d.kind = true <;>
    by_cases h2 : d.kind = BoxKind.blockBox ∨ d.kind = BoxKind.tableCaptionBox <;>
    by_cases h3 : d.kind = BoxKind.tableBox ∨ d.kind = BoxKind.inlineTableBox <;>
      simp [Box.reachablePositions, Box.allChildren, Box.data, h1, h2, h3,
        reachableList_append, reachableList]

theorem find_first_of_filter_singleton {α : Type} {p : α → Bool} :
    ∀ (l : List α) (a : α), l.filter p = [a] → l.find? p = some a := by
  intro l
  induction l with
  | nil => intro a h; simp at h
  | cons b bs ih =>
    intro a h
    by_cases hb : p b
    · rw [List.filter_cons_of_pos hb] at h
      rw [List.cons.injEq] at h
      rw [List.find?_cons_of_pos _ hb, h.1]
    · rw [List.filter_cons_of_neg (by simpa using hb)] at h
      rw [List.find?_cons_of_neg _ (by simpa using hb)]
      exact ih a h

theorem sizeOf_lt_of_mem_parts {x : Box} {d : BoxData} {cs m gs : List Box}
    (hx : x ∈ m ∨ x ∈ gs) : sizeOf x < sizeOf (Box.mk d cs m gs) := by
  cases hx with
  | inl h =>
    have := List.sizeOf_lt_of_mem h
    simp only [Box.mk.sizeOf_spec]
    omega
  | inr h =>
    have := List.sizeOf_lt_of_mem h
    simp only [Box.mk.sizeOf_spec]
    omega

/-! Claim theorems. -/

/-- C3: `translate(dx, dy)` shifts `position_x` by `dx` and `position_y`
by `dy` on the box and on every box reachable recursively through
`all_children()` (which includes a block box's outside list marker and a
table box's column groups), and `translate(dx, dy)` followed by
`translate(-dx, -dy)` restores every position exactly. -/
theorem translate_shifts_and_roundtrips (b : Box) (dx dy : ℚ) :
    (Box.translate dx dy b).reachablePositions =
      b.reachablePositions.map (fun p => (p.1 + dx, p.2 + dy)) ∧
    Box.translate (-dx) (-dy) (Box.translate dx dy b) = b ∧
    b.reachablePositions =
      (b.data.positionX, b.data.positionY) :: reachableList b.allChildren :=
  ⟨reachable_translate dx dy b, translate_translate_neg dx dy b,
    reachablePositions_eq_allChildren b⟩

/-- C4: when all margin, border-width and padding fields are
non-negative, `margin_width() ≥ border_width() ≥ padding_width() ≥
width` and `margin_height() ≥ border_height() ≥ padding_height() ≥
height`; each size is the next-inner size plus the relevant edge
thicknesses, recomputed from the current fields. -/
theorem box_model_size_chain (d : BoxData)
    (hml : 0 ≤ d.marginLeft) (hmr : 0 ≤ d.marginRight)
    (hmt : 0 ≤ d.marginTop) (hmb : 0 ≤ d.marginBottom)
    (hpl : 0 ≤ d.paddingLeft) (hpr : 0 ≤ d.paddingRight)
    (hpt : 0 ≤ d.paddingTop) (hpb : 0 ≤ d.paddingBottom)
    (hbl : 0 ≤ d.borderLeftWidth) (hbr : 0 ≤ d.borderRightWidth)
    (hbt : 0 ≤ d.borderTopWidth) (hbb : 0 ≤ d.borderBottomWidth) :
    (d.marginWidth ≥ d.borderWidth ∧ d.borderWidth ≥ d.paddingWidth ∧
      d.paddingWidth ≥ d.width) ∧
    (d.marginHeight ≥ d.borderHeight ∧ d.borderHeight ≥ d.paddingHeight ∧
      d.paddingHeight ≥ d.height) ∧
    (d.paddingWidth = d.width + d.paddingLeft + d.paddingRight ∧
      d.borderWidth = d.paddingWidth + d.borderLeftWidth + d.borderRightWidth ∧
      d.marginWidth = d.borderWidth + d.marginLeft + d.marginRight ∧
      d.paddingHeight = d.height + d.paddingTop + d.paddingBottom ∧
      d.borderHeight = d.paddingHeight + d.borderTopWidth + d.borderBottomWidth ∧
      d.marginHeight = d.borderHeight + d.marginTop + d.marginBottom) := by
  refine ⟨⟨?_, ?_, ?_⟩, ⟨?_, ?_, ?_⟩, rfl, rfl, rfl, rfl, rfl, rfl⟩ <;>
    simp only [BoxData.marginWidth, BoxData.borderWidth, BoxData.paddingWidth,
      BoxData.marginHeight, BoxData.borderHeight, BoxData.paddingHeight, ge_iff_le] <;>
    linarith

/-- A box data value with every edge field set to a distinct positive
thickness, used as a concrete instance by the witnesses. -/
def sampleData : BoxData :=
  { kind := BoxKind.blockBox
    positionX := 10
    positionY := 20
    width := 100
    height := 50
    marginTop := 1
    marginBottom := 2
    marginLeft := 3
    marginRight := 4
    paddingTop := 5
    paddingBottom := 6
    paddingLeft := 7
    paddingRight := 8
    borderTopWidth := 9
    borderBottomWidth := 10
    borderLeftWidth := 11
    borderRightWidth := 12
    style :=
      { marginTop := 1
        marginBottom := 2
        marginLeft := 3
        marginRight := 4
        paddingTop := 5
        paddingBottom := 6
        paddingLeft := 7
        paddingRight := 8
        borderTopWidth := 9
        borderBottomWidth := 10
        borderLeftWidth := 11
        borderRightWidth := 12 } }

/-- Witness for C4 at `sampleData`. -/
theorem box_model_size_chain_witness :
    (0 ≤ sampleData.marginLeft ∧ 0 ≤ sampleData.paddingLeft ∧
      0 ≤ sampleData.borderLeftWidth) ∧
    sampleData.marginWidth ≥ sampleData.borderWidth ∧
    sampleData.borderWidth ≥ sampleData.paddingWidth ∧
    sampleData.paddingWidth ≥ sampleData.width :=
  ⟨⟨by norm_num [sampleData], by norm_num [sampleData], by norm_num [sampleData]⟩,
    (box_model_size_chain sampleData (by norm_num [sampleData])
      (by norm_num [sampleData]) (by norm_num [sampleData]) (by norm_num [sampleData])
      (by norm_num [sampleData]) (by norm_num [sampleData]) (by norm_num [sampleData])
      (by norm_num [sampleData]) (by norm_num [sampleData]) (by norm_num [sampleData])
      (by norm_num [sampleData]) (by norm_num [sampleData])).1⟩

/-- C2: on a box whose `is_table_wrapper` flag is set,
`get_wrapped_table()` returns the unique `TableBox`/`InlineTableBox`
child when there is exactly one, and raises
`ValueError('Table wrapper without a table')` when there is none. -/
theorem getWrappedTable_on_wrapper (d : BoxData) (cs m gs : List Box) (tc : Box)
    (hw : d.isTableWrapper = true) :
    (cs.filter (fun c => isTableBoxKind c.data.kind) = [tc] →
      (Box.mk d cs m gs).getWrappedTable = .ok (some tc)) ∧
    (cs.filter (fun c => isTableBoxKind c.data.kind) = [] →
      (Box.mk d cs m gs).getWrappedTable = .error "Table wrapper without a table") := by
  have hdata : (Box.mk d cs m gs).data = d := rfl
  have hch : (Box.mk d cs m gs).children = cs := rfl
  constructor
  · intro hf
    have hfind := find_first_of_filter_singleton cs tc hf
    unfold Box.getWrappedTable
    rw [hdata, hch, hw, hfind]
    simp
  · intro hf
    have hfind : cs.find? (fun c => isTableBoxKind c.data.kind) = none := by
      rw [List.find?_eq_none]
      intro x hx
      have := List.filter_eq_nil_iff.mp hf x hx
      simpa using this
    unfold Box.getWrappedTable
    rw [hdata, hch, hw, hfind]
    simp

/-- A table box child used by the witnesses. -/
def sampleTable : Box :=
  Box.mk { kind := BoxKind.tableBox } [] [] []

/-- A table-wrapper block box holding `sampleTable` as its only child. -/
def sampleWrapper : Box :=
  Box.mk { kind := BoxKind.blockBox, isTableWrapper := true } [sampleTable] [] []

/-- Witness for C2 at a wrapper with exactly one table child. -/
theorem getWrappedTable_on_wrapper_witness :
    ({ kind := BoxKind.blockBox, isTableWrapper := true : BoxData }.isTableWrapper
        = true) ∧
    sampleWrapper.getWrappedTable = .ok (some sampleTable) :=
  ⟨rfl,
    (getWrappedTable_on_wrapper
      { kind := BoxKind.blockBox, isTableWrapper := true }
      [sampleTable] [] [] sampleTable rfl).1 rfl⟩

/-- C8: on a box whose `is_table_wrapper` flag is clear,
`get_wrapped_table()` silently returns `None`, whether or not a table
child is present. -/
theorem getWrappedTable_not_wrapper (b : Box)
    (h : b.data.isTableWrapper = false) :
    b.getWrappedTable = .ok none := by
  simp [Box.getWrappedTable, h]

/-- A non-wrapper block box that nevertheless has a table child. -/
def sampleNonWrapper : Box :=
  Box.mk { kind := BoxKind.blockBox } [sampleTable] [] []

/-- Witness for C8 at a non-wrapper box holding a table child. -/
theorem getWrappedTable_not_wrapper_witness :
    sampleNonWrapper.data.isTableWrapper = false ∧
    sampleNonWrapper.getWrappedTable = .ok none :=
  ⟨rfl, getWrappedTable_not_wrapper sampleNonWrapper rfl⟩

/-- An anonymous style with hyphenation disabled and no text transform. -/
def shyStyle : Style :=
  { anonymous := true, hyphens := "none" }

/-- C10: `TextBox` construction succeeds on the non-empty input
consisting of a single U+00AD soft hyphen under a style that disables
hyphenation — the non-empty-text assertion runs before soft-hyphen
stripping — and the stored text is empty. -/
theorem textBox_shy_only_input_stores_empty :
    textBoxInit shyStyle "\u00AD" = some "" ∧ ("\u00AD" : String) ≠ "" := by
  constructor
  · decide
  · decide

/-- C7 evaluation: every construction of a `MarginBox` that omits the
`children` argument receives `marginBoxDefaultListId`, the identity of
the single list object built for the default expression `children=[]`
when the `def` statement executed — i.e. all such constructions share
one container object. -/
theorem marginBox_default_children_shared :
    marginBoxChildrenArgId none = marginBoxDefaultListId := rfl

/-- Whether `copy_with_children` zeroes the spacing of `side`: the
leading edge when the fragment is not a start, the trailing edge when it
is not an end. -/
def strippedSide (k : BoxKind) (direction : String) (isStart isEnd : Bool)
    (side : Side) : Prop :=
  (isStart = false ∧ side = leadingEdge k direction) ∨
  (isEnd = false ∧ side = trailingEdge k direction)

instance (k : BoxKind) (direction : String) (isStart isEnd : Bool) (side : Side) :
    Decidable (strippedSide k direction isStart isEnd side) := by
  unfold strippedSide
  infer_instance

/-- C1: `copy_with_children(new_children, is_start, is_end)` replaces the
children and zeroes margin, padding and border-width on exactly the edges
whose flag is false — the leading edge (physical top for boxes stripped
by the `ParentBox` rule, logical start, `left` for `ltr` and `right`
otherwise, for boxes stripped by the `InlineLevelBox` rule) when
`is_start` is false, the trailing edge when `is_end` is false, no edge
when both are true — both in the resolved fields and in the style map of
the result. -/
theorem copyWithChildren_strips_exact_edges (d : BoxData) (cs m gs nc : List Box)
    (isStart isEnd : Bool) (side : Side)
    (hp : isParentKind d.kind = true) :
    ((Box.mk d cs m gs).copyWithChildren nc isStart isEnd).children = nc ∧
    ((Box.mk d cs m gs).copyWithChildren nc isStart isEnd).data.marginOn side =
      (if strippedSide d.kind d.style.direction isStart isEnd side then 0
       else d.marginOn side) ∧
    ((Box.mk d cs m gs).copyWithChildren nc isStart isEnd).data.paddingOn side =
      (if strippedSide d.kind d.style.direction isStart isEnd side then 0
       else d.paddingOn side) ∧
    ((Box.mk d cs m gs).copyWithChildren nc isStart isEnd).data.borderWidthOn side =
      (if strippedSide d.kind d.style.direction isStart isEnd side then 0
       else d.borderWidthOn side) ∧
    ((Box.mk d cs m gs).copyWithChildren nc isStart isEnd).data.style.marginOn side =
      (if strippedSide d.kind d.style.direction isStart isEnd side then zeroPixels
       else d.style.marginOn side) ∧
    ((Box.mk d cs m gs).copyWithChildren nc isStart isEnd).data.style.paddingOn side =
      (if strippedSide d.kind d.style.direction isStart isEnd side then zeroPixels
       else d.style.paddingOn side) ∧
    ((Box.mk d cs m gs).copyWithChildren nc isStart isEnd).data.style.borderWidthOn side =
      (if strippedSide d.kind d.style.direction isStart isEnd side then 0
       else d.style.borderWidthOn side) := by
  cases isStart <;> cases isEnd <;>
  by_cases hin : isInlineLevelKind d.kind = true <;>
  by_cases hdir : d.style.direction = "ltr" <;>
  cases side <;>
    simp [Box.copyWithChildren, Box.data, Box.children, removeDecoration,
      resetSpacing, strippedSide, leadingEdge, trailingEdge, zeroPixels,
      BoxData.marginOn, BoxData.paddingOn, BoxData.borderWidthOn,
      Style.marginOn, Style.paddingOn, Style.borderWidthOn, hin, hdir]

/-- An inline box instance of `sampleData`, used by the C1 witness. -/
def sampleInlineData : BoxData :=
  { sampleData with kind := BoxKind.inlineBox }

/-- Witness for C1: an inline `ltr` box copied as a continuation
fragment (`is_start = false`, `is_end = true`) has its left margin
zeroed. -/
theorem copyWithChildren_strips_exact_edges_witness :
    isParentKind sampleInlineData.kind = true ∧
    ((Box.mk sampleInlineData [] [] []).copyWithChildren [] false true).data.marginOn
        Side.left =
      (if strippedSide sampleInlineData.kind sampleInlineData.style.direction
          false true Side.left then 0
       else sampleInlineData.marginOn Side.left) :=
  ⟨rfl,
    (copyWithChildren_strips_exact_edges sampleInlineData [] [] [] [] false true
      Side.left rfl).2.1⟩

/-- C5: the stored text of a `TextBox` is the input passed first through
the style's `text_transform` (with `uppercase`, `lowercase` and
`capitalize` the only values permitted besides `none`) and then, when
`style.hyphens == 'none'`, through soft-hyphen removal; in particular
`uppercase` stores `café` as `CAFÉ`, and with hyphenation disabled the
stored text holds no U+00AD. -/
theorem textBox_transform_then_strip (style : Style) (text stored : String)
    (h : textBoxInit style text = some stored) :
    (∃ transformed,
      applyTextTransform style.textTransform text = some transformed ∧
      stored = (if style.hyphens = "none" then removeSoftHyphens transformed
                else transformed)) ∧
    (style.textTransform ≠ "none" →
      style.textTransform = "uppercase" ∨ style.textTransform = "lowercase" ∨
        style.textTransform = "capitalize") ∧
    (style.textTransform = "uppercase" → text = "café" → stored = "CAFÉ") ∧
    (style.hyphens = "none" → softHyphen ∉ stored.data) := by
  unfold textBoxInit at h
  split at h
  case isFalse => exact absurd h (by simp)
  split at h
  case isFalse => exact absurd h (by simp)
  split at h
  case h_2 => exact absurd h (by simp)
  case h_1 t heq =>
    rw [Option.some.injEq] at h
    refine ⟨⟨t, heq, h.symm⟩, ?_, ?_, ?_⟩
    · intro hne
      unfold applyTextTransform at heq
      rw [if_pos hne] at heq
      split at heq
      · left; assumption
      · right; left; assumption
      · right; right; assumption
      · exact absurd heq (by simp)
    · intro htt htext
      subst htext
      rw [htt] at heq
      have hupper : applyTextTransform "uppercase" "café" = some "CAFÉ" := by decide
      rw [hupper, Option.some.injEq] at heq
      subst heq
      by_cases hh : style.hyphens = "none"
      · rw [if_pos hh] at h
        rw [← h]
        decide
      · rw [if_neg hh] at h
        exact h.symm
    · intro hh
      rw [if_pos hh] at h
      rw [← h]
      simp [removeSoftHyphens, List.mem_filter]

/-- The anonymous uppercasing style of the C5 witness. -/
def upperStyle : Style :=
  { anonymous := true, textTransform := "uppercase", hyphens := "none" }

/-- Witness for C5: constructing a `TextBox` from `café` under
`upperStyle` stores `CAFÉ`, which holds no soft hyphen. -/
theorem textBox_transform_then_strip_witness :
    textBoxInit upperStyle "café" = some "CAFÉ" ∧
    softHyphen ∉ ("CAFÉ" : String).data :=
  ⟨by decide,
    (textBox_transform_then_strip upperStyle "café" "CAFÉ" (by decide)).2.2.2 rfl⟩

/-- C6: `copy()` yields a box of the same runtime variant whose style is
a freshly allocated object, distinct from the original's but holding
equal values at copy time, so that mutating either style afterwards
leaves the other unchanged; every other attribute — the children tuple
reference included — is copied verbatim, not deep-copied. -/
theorem copy_fresh_style_shared_children (st : StyleStore) (b : PyBoxObj)
    (hv : b.styleRef < st.size) :
    ((pyBoxCopy st b).2.kind = b.kind ∧
      (pyBoxCopy st b).2.childrenRef = b.childrenRef ∧
      (pyBoxCopy st b).2.positionX = b.positionX ∧
      (pyBoxCopy st b).2.positionY = b.positionY) ∧
    (pyBoxCopy st b).2.styleRef ≠ b.styleRef ∧
    (pyBoxCopy st b).1.get (pyBoxCopy st b).2.styleRef = st.get b.styleRef ∧
    (pyBoxCopy st b).1.get b.styleRef = st.get b.styleRef ∧
    (∀ f : Style → Style,
      ((pyBoxCopy st b).1.setProp (pyBoxCopy st b).2.styleRef f).get b.styleRef =
        st.get b.styleRef ∧
      ((pyBoxCopy st b).1.setProp b.styleRef f).get (pyBoxCopy st b).2.styleRef =
        st.get b.styleRef) := by
  have hne : st.size ≠ b.styleRef := by omega
  have hne2 : b.styleRef ≠ st.size := by omega
  refine ⟨⟨rfl, rfl, rfl, rfl⟩, hne, ?_, ?_, fun f => ⟨?_, ?_⟩⟩ <;>
    simp [pyBoxCopy, StyleStore.alloc, StyleStore.get, StyleStore.setProp, hne, hne2]

/-- A one-object style store for the C6 witness. -/
def sampleStore : StyleStore :=
  { size := 1, contents := fun _ => {} }

/-- A box object whose style lives at index 0 of `sampleStore`. -/
def sampleObj : PyBoxObj :=
  { kind := BoxKind.blockBox, styleRef := 0, childrenRef := 7 }

/-- Witness for C6 at `sampleStore`/`sampleObj`. -/
theorem copy_fresh_style_shared_children_witness :
    sampleObj.styleRef < sampleStore.size ∧
    (pyBoxCopy sampleStore sampleObj).2.styleRef ≠ sampleObj.styleRef ∧
    (pyBoxCopy sampleStore sampleObj).2.childrenRef = sampleObj.childrenRef :=
  ⟨by decide,
    (copy_fresh_style_shared_children sampleStore sampleObj (by decide)).2.1,
    (copy_fresh_style_shared_children sampleStore sampleObj (by decide)).1.2.1⟩

/-- C9: `descendants()` yields the box itself followed by the walk of the
regular children only; a box held only as an outside list marker or a
column group is never yielded, although `translate` does reach it (the
marker and column-group lists are in `all_children()` for the relevant
classes and their positions are shifted). -/
theorem descendants_skip_out_of_band (d : BoxData) (cs m gs : List Box)
    (x : Box) (dx dy : ℚ)
    (hp : isParentKind d.kind = true)
    (hx : x ∈ m ∨ x ∈ gs)
    (hnot : x ∉ descendantsList cs) :
    (Box.mk d cs m gs).descendants = Box.mk d cs m gs :: descendantsList cs ∧
    x ∉ (Box.mk d cs m gs).descendants ∧
    (d.kind = BoxKind.blockBox ∨ d.kind = BoxKind.tableCaptionBox →
      m ⊆ (Box.mk d cs m gs).allChildren ∧
      (Box.translate dx dy (Box.mk d cs m gs)).marker = translateList dx dy m) ∧
    (d.kind = BoxKind.tableBox ∨ d.kind = BoxKind.inlineTableBox →
      gs ⊆ (Box.mk d cs m gs).allChildren ∧
      (Box.translate dx dy (Box.mk d cs m gs)).columnGroups =
        translateList dx dy gs) ∧
    reachableList (translateList dx dy m) =
      (reachableList m).map (fun p => (p.1 + dx, p.2 + dy)) ∧
    reachableList (translateList dx dy gs) =
      (reachableList gs).map (fun p => (p.1 + dx, p.2 + dy)) := by
  refine ⟨rfl, ?_, ?_, ?_, reachableList_translate dx dy m,
    reachableList_translate dx dy gs⟩
  · have hsz := @sizeOf_lt_of_mem_parts x d cs m gs hx
    intro hmem
    simp only [Box.descendants, List.mem_cons] at hmem
    rcases hmem with heq | hmem2
    · rw [heq] at hsz
      exact absurd hsz (lt_irrefl _)
    · exact hnot hmem2
  · intro hk
    have hall : (Box.mk d cs m gs).allChildren = cs ++ m := by
      simp [Box.allChildren, hk]
    refine ⟨?_, ?_⟩
    · rw [hall]
      exact fun y hy => List.mem_append_right _ hy
    · simp [Box.translate, Box.marker, hk]
  · intro hk
    have hnotblock : ¬(d.kind = BoxKind.blockBox ∨ d.kind = BoxKind.tableCaptionBox) := by
      rcases hk with h | h <;> simp [h]
    have hall : (Box.mk d cs m gs).allChildren = cs ++ gs := by
      simp [Box.allChildren, hk, hnotblock]
    refine ⟨?_, ?_⟩
    · rw [hall]
      exact fun y hy => List.mem_append_right _ hy
    · simp [Box.translate, Box.columnGroups, hk]

/-- An outside list marker box for the C9 witness. -/
def sampleMarker : Box :=
  Box.mk { kind := BoxKind.blockBox, positionX := 1, positionY := 2 } [] [] []

/-- Witness for C9: a block box whose only out-of-band box is
`sampleMarker` never yields it from `descendants()`. -/
theorem descendants_skip_out_of_band_witness :
    isParentKind BoxKind.blockBox = true ∧
    (sampleMarker ∈ [sampleMarker] ∨ sampleMarker ∈ ([] : List Box)) ∧
    sampleMarker ∉ descendantsList [] ∧
    sampleMarker ∉ (Box.mk { kind := BoxKind.blockBox } [] [sampleMarker] []).descendants :=
  ⟨rfl, Or.inl (List.mem_singleton.mpr rfl), by simp [descendantsList],
    (descendants_skip_out_of_band { kind := BoxKind.blockBox } [] [sampleMarker] []
      sampleMarker 0 0 rfl (Or.inl (List.mem_singleton.mpr rfl))
      (by simp [descendantsList])).2.1⟩
